import Mathlib

/-!
Verification of the `tvchart` chart-builder (`src/tvchart/chart.py`) against its
natural-language specification.

The builder class `TVChart` is embedded shallowly:

* Python dicts become association lists (`List (κ × α)`) with Python-dict
  assignment semantics (`aset` replaces the value of an existing key in place,
  otherwise appends at the end; `aget?` looks a key up; `ahas` tests presence).
* Option/JSON values become `JVal`: a primitive, or a one-level string-keyed
  object.  The builder never inspects option values beyond key presence, and
  every value the source code itself constructs fits in this universe
  (`priceFormat`, `scaleMargins`, `timeScale` are flat objects; everything else
  is a primitive).
* Python exceptions become `Except TVError`; a call that raises returns
  `.error e` and the caller keeps its previous builder state, which models the
  fact that the source mutates `self` only after the raising expression has
  been fully evaluated.
* The Jinja template collaborator is opaque and pure (spec §6), so a rendered
  drawing is modelled by the parameter record handed to the template
  (`Drawing`), and the final document by the parameter record handed to
  `index.html` (`RenderOutput`).
* Floating point does not matter here (no arithmetic is performed on prices),
  so numeric payloads are `Rat`.
-/

/-- Primitive JSON-ish values appearing in options, points and markers. -/
inductive JPrim where
  | s (v : String)
  | i (v : Int)
  | q (v : Rat)
  | b (v : Bool)
  | null
deriving DecidableEq, Repr

/-- An option/marker value: a primitive or a one-level object.  The builder
treats values opaquely, and every object the source constructs is one level
deep. -/
inductive JVal where
  | p (v : JPrim)
  | obj (fields : List (String × JPrim))
deriving DecidableEq, Repr

/-- A Python dict with string keys, as an ordered association list. -/
abbrev Dict := List (String × JVal)

/-- Python dict assignment `d[k] = v`: replace the value of an existing key in
place (keeping its position), otherwise append the new key at the end. -/
def aset {κ α : Type} [DecidableEq κ] : List (κ × α) → κ → α → List (κ × α)
  | [], k, v => [(k, v)]
  | p :: rest, k, v => if p.1 = k then (k, v) :: rest else p :: aset rest k v

/-- Python dict lookup `d.get(k)`. -/
def aget? {κ α : Type} [DecidableEq κ] : List (κ × α) → κ → Option α
  | [], _ => none
  | p :: rest, k => if p.1 = k then some p.2 else aget? rest k

/-- Python `k in d`. -/
def ahas {κ α : Type} [DecidableEq κ] : List (κ × α) → κ → Bool
  | [], _ => false
  | p :: rest, k => if p.1 = k then true else ahas rest k

/-- A Python dict literal built left to right (later duplicate keys override
earlier ones in place), e.g. `{"time": k, "text": v, **options}`. -/
def pyDict (pairs : List (String × JVal)) : Dict :=
  pairs.foldl (fun d kv => aset d kv.1 kv.2) []

/-- `TVSeriesType` from the source: the closed set of widget series kinds. -/
inductive TVSeriesType where
  | Area | Bar | Baseline | Candlestick | Histogram | Line
deriving DecidableEq, Repr

/-- A rendered drawing instruction: the parameter record the source hands to
the (opaque, pure) Jinja template when it appends to `self.__drawings`. -/
inductive Drawing where
  | addSeries (type : TVSeriesType) (series_name : String) (options : Option Dict)
      (data : List Dict)
  | addPriceLine (series_name : String) (data : Dict)
  | addMarkers (series_name : String) (data : List Dict)
deriving DecidableEq, Repr

/-- Python exceptions raised by the source. -/
inductive TVError where
  | parseError | typeError | indexError
deriving DecidableEq, Repr

deriving instance DecidableEq for Except

/-- Modelled from the spec: the external date-parser collaborator
(`dateutil.parser.parse`, a third-party library outside this repository).
Per spec §6 it maps a date string to calendar components and malformed strings
fail with a `ParseError`.  This model accepts the ISO-8601 shapes
`YYYY-MM-DD`, `YYYY-MM-DDTHH:MM:SS`, `YYYY-MM-DD HH:MM:SS`, each optionally
suffixed with `Z`; any timezone information is discarded by the caller's
`replace(tzinfo=UTC)` anyway.  Everything else returns `none`. -/
def parseDT (s : String) : Option (Int × Int × Int × Int × Int × Int) :=
  let dv : Char → Option Nat := fun ch =>
    if ch.isDigit then some (ch.toNat - 48) else none
  let n2 : Char → Char → Option Nat := fun a b => do
    let x ← dv a
    let y ← dv b
    pure (10 * x + y)
  let n4 : Char → Char → Char → Char → Option Nat := fun a b c d => do
    let x ← n2 a b
    let y ← n2 c d
    pure (100 * x + y)
  let mk : Nat → Nat → Nat → Nat → Nat → Nat →
      Option (Int × Int × Int × Int × Int × Int) := fun y mo d hh mi ss =>
    if 1 ≤ mo && mo ≤ 12 && 1 ≤ d && d ≤ 31 && hh ≤ 23 && mi ≤ 59 && ss ≤ 59 then
      some ((y : Int), (mo : Int), (d : Int), (hh : Int), (mi : Int), (ss : Int))
    else none
  match s.toList with
  | [y1, y2, y3, y4, '-', m1, m2, '-', d1, d2] => do
    let y ← n4 y1 y2 y3 y4
    let mo ← n2 m1 m2
    let d ← n2 d1 d2
    mk y mo d 0 0 0
  | [y1, y2, y3, y4, '-', m1, m2, '-', d1, d2, 'T',
     h1, h2, ':', i1, i2, ':', s1, s2] => do
    let y ← n4 y1 y2 y3 y4
    let mo ← n2 m1 m2
    let d ← n2 d1 d2
    let hh ← n2 h1 h2
    let mi ← n2 i1 i2
    let ss ← n2 s1 s2
    mk y mo d hh mi ss
  | [y1, y2, y3, y4, '-', m1, m2, '-', d1, d2, 'T',
     h1, h2, ':', i1, i2, ':', s1, s2, 'Z'] => do
    let y ← n4 y1 y2 y3 y4
    let mo ← n2 m1 m2
    let d ← n2 d1 d2
    let hh ← n2 h1 h2
    let mi ← n2 i1 i2
    let ss ← n2 s1 s2
    mk y mo d hh mi ss
  | [y1, y2, y3, y4, '-', m1, m2, '-', d1, d2, ' ',
     h1, h2, ':', i1, i2, ':', s1, s2] => do
    let y ← n4 y1 y2 y3 y4
    let mo ← n2 m1 m2
    let d ← n2 d1 d2
    let hh ← n2 h1 h2
    let mi ← n2 i1 i2
    let ss ← n2 s1 s2
    mk y mo d hh mi ss
  | _ => none

/-- Days from 1970-01-01 to the given civil date (proleptic Gregorian),
the standard era-based computation; Lean's `Int` division truncates toward
zero exactly like the reference formulation. -/
def daysFromCivil (y m d : Int) : Int :=
  let y := if m ≤ 2 then y - 1 else y
  let era := (if 0 ≤ y then y else y - 399) / 400
  let yoe := y - era * 400
  let doy := (153 * (m + (if 2 < m then -3 else 9)) + 2) / 5 + d - 1
  let doe := yoe * 365 + yoe / 4 - yoe / 100 + doy
  era * 146097 + doe - 719468

/-- `int(parser.parse(x).replace(tzinfo=UTC).timestamp())` from the source:
parse the string, force the timezone to UTC (discarding any parsed offset),
and take integer epoch seconds. -/
def parseEpochUTC (s : String) : Option Int := do
  let (y, mo, d, hh, mi, ss) ← parseDT s
  pure (daysFromCivil y mo d * 86400 + hh * 3600 + mi * 60 + ss)

/-- The list comprehension building `self.time_series`: all timestamps must
parse, and a parse failure aborts before anything is assigned. -/
def parseTimes : List String → Option (List Int)
  | [] => some []
  | x :: xs =>
    match parseEpochUTC x, parseTimes xs with
    | some t, some ts => some (t :: ts)
    | _, _ => none

/-- The builder state (`TVChart.__init__` fields; `__drawings` is `drawings`). -/
structure TVChart where
  time_series : Option (List Int)
  chart_options : Option Dict
  series_markers : List (String × List Dict)
  legend_html : Option String
  drawings : List Drawing
deriving DecidableEq, Repr

/-- Python `s.lower().strip()`: lowercase every character, then drop leading
and trailing whitespace (structural recursion over the character list, so it
is fully executable). -/
def pyLowerStrip (s : String) : String :=
  let strip : List Char → List Char := fun l =>
    ((l.dropWhile Char.isWhitespace).reverse.dropWhile Char.isWhitespace).reverse
  String.mk (strip (s.toList.map Char.toLower))

/-- The `timeScale` object forced by interday mode. -/
def interdayTimeScale : JVal :=
  .obj [("timeVisible", .b true), ("secondsVisible", .b false)]

/-- `TVChart.__init__(mode, chart_options)`: in interday mode (lowercased then
stripped), a missing options dict becomes `{}` and its `timeScale` key is
overwritten. -/
def TVChart.init (mode : String) (chart_options : Option Dict) : TVChart :=
  let copts :=
    if pyLowerStrip mode = "interday" then
      some (aset (chart_options.getD []) "timeScale" interdayTimeScale)
    else chart_options
  { time_series := none, chart_options := copts, series_markers := [],
    legend_html := none, drawings := [] }

/-- `set_legend_html`. -/
def TVChart.set_legend_html (ch : TVChart) (html : String) : TVChart :=
  { ch with legend_html := some html }

/-- Python `zip` over the five OHLC columns: truncate to the shortest. -/
def zip5 {a b c d e : Type} :
    List a -> List b -> List c -> List d -> List e -> List (a × b × c × d × e)
  | x :: xs, y :: ys, z :: zs, w :: ws, u :: us =>
    (x, y, z, w, u) :: zip5 xs ys zs ws us
  | _, _, _, _, _ => []

/-- One OHLC data point `{"time": t, "open": o, "high": h, "low": l, "close": c}`. -/
def ohlcPoint (ti : Int) (oi hi li ci : Rat) : Dict :=
  [("time", .p (.i ti)), ("open", .p (.q oi)), ("high", .p (.q hi)),
   ("low", .p (.q li)), ("close", .p (.q ci))]

/-- One value data point `{"time": t, "value": x}`. -/
def valuePoint (t : JPrim) (x : Rat) : Dict :=
  [("time", .p t), ("value", .p (.q x))]

/-- `TVChart.add_ohlcv`: parse all timestamps (a failure raises before any
state change), overwrite the time axis, append the candlestick instruction
named "ohlc", and, when `v` is supplied and truthy (non-empty), append the
volume histogram with its forced and fill-if-absent option defaults. -/
def TVChart.add_ohlcv (ch : TVChart) (t : List String) (o h l c : List Rat)
    (v : Option (List Rat)) (ohlc_options volume_options : Option Dict) :
    Except TVError TVChart :=
  match parseTimes t with
  | none => .error .parseError
  | some ts =>
    let ohlc_data := (zip5 ts o h l c).map fun x =>
      ohlcPoint x.1 x.2.1 x.2.2.1 x.2.2.2.1 x.2.2.2.2
    let ch1 : TVChart := { ch with
      time_series := some ts,
      drawings := ch.drawings ++
        [.addSeries .Candlestick "ohlc" ohlc_options ohlc_data] }
    match v with
    | none => .ok ch1
    | some vl =>
      if vl.isEmpty then .ok ch1
      else
        let vdata := (ts.zip vl).map fun x => valuePoint (.i x.1) x.2
        let vo := volume_options.getD []
        let vo := aset vo "priceFormat" (.obj [("type", .s "volume")])
        let vo := aset vo "priceScaleId" (.p (.s ""))
        let vo := if ahas vo "scaleMargins" then vo
          else aset vo "scaleMargins" (.obj [("top", .q 0.9), ("bottom", .q 0)])
        let vo := if ahas vo "color" then vo
          else aset vo "color" (.p (.s "#26a69a"))
        .ok { ch1 with drawings := ch1.drawings ++
          [.addSeries .Histogram "volume" (some vo) vdata] }

/-- `TVChart.add_series`: force `options["pane"]`, zip the time axis with the
series (shortest-length truncation), drop pairs whose value is `None`, and
append one instruction.  Before an axis exists, `zip(None, series)` raises a
`TypeError`. -/
def TVChart.add_series (ch : TVChart) (name : String) (pane : Int)
    (series : List (Option Rat)) (type : TVSeriesType) (options : Option Dict) :
    Except TVError TVChart :=
  match ch.time_series with
  | none => .error .typeError
  | some ts =>
    let opts := aset (options.getD []) "pane" (.p (.i pane))
    let data := (ts.zip series).filterMap fun x =>
      x.2.map fun val => valuePoint (.i x.1) val
    .ok { ch with drawings := ch.drawings ++
      [.addSeries type name (some opts) data] }

/-- `TVChart.add_price_line`: pack the scalar fields into the data mapping and
append one price-line instruction. -/
def TVChart.add_price_line (ch : TVChart) (name : String) (price : Rat)
    (color : String) (line_width line_style : Int) (axis_label_visiable : Bool)
    (title : Option String) : TVChart :=
  let data : Dict :=
    [("price", .p (.q price)), ("color", .p (.s color)),
     ("lineWidth", .p (.i line_width)), ("lineStyle", .p (.i line_style)),
     ("axisLabelVisible", .p (.b axis_label_visiable)),
     ("title", .p (match title with | some s => .s s | none => .null))]
  { ch with drawings := ch.drawings ++ [.addPriceLine name data] }

/-- Python list subscription `l[k]`: non-negative indices must be in range
(`IndexError` otherwise), negative indices wrap from the end, again raising
`IndexError` when they fall off the front. -/
def pyIndex (l : List Int) (k : Int) : Except TVError Int :=
  if 0 ≤ k then
    match l.get? k.toNat with
    | some x => .ok x
    | none => .error .indexError
  else if 0 ≤ (l.length : Int) + k then
    match l.get? ((l.length : Int) + k).toNat with
    | some x => .ok x
    | none => .error .indexError
  else .error .indexError

/-- The shared default for the marker `options` parameter. -/
def defaultMarkerOptions : Dict :=
  [("color", .p (.s "red")), ("shape", .p (.s "arrowUp")),
   ("position", .p (.s "belowBar"))]

/-- `TVChart.add_markers_by_time`: append (never replace) into the per-name
marker accumulator; each `(time, text)` pair becomes the Python dict literal
`{"time": k, "text": v, **options}` (the spread comes last). -/
def TVChart.add_markers_by_time (ch : TVChart) (name : String)
    (time_dict : List (JPrim × String)) (options : Dict) : TVChart :=
  let prev := (aget? ch.series_markers name).getD []
  let added := time_dict.map fun kv =>
    pyDict ([("time", .p kv.1), ("text", .p (.s kv.2))] ++ options)
  { ch with series_markers := aset ch.series_markers name (prev ++ added) }

/-- The dict comprehension `{self.time_series[k]: v for k, v in idx_dict}`:
subscripting `None` raises `TypeError`, each index goes through Python
subscription, and duplicate timestamp keys collapse dict-style. -/
def idxToTimeDict (axis : Option (List Int)) :
    List (Int × String) -> Except TVError (List (JPrim × String))
  | [] => .ok []
  | kv :: rest =>
    match axis with
    | none => .error .typeError
    | some ts =>
      match pyIndex ts kv.1 with
      | .error e => .error e
      | .ok t =>
        match idxToTimeDict axis rest with
        | .error e => .error e
        | .ok d => .ok (aset d (JPrim.i t) kv.2)

/-- `TVChart.add_markers_by_idx`: translate index keys through the time axis,
then delegate to `add_markers_by_time`. -/
def TVChart.add_markers_by_idx (ch : TVChart) (name : String)
    (idx_dict : List (Int × String)) (options : Dict) :
    Except TVError TVChart :=
  match idxToTimeDict ch.time_series idx_dict with
  | .error e => .error e
  | .ok time_dict => .ok (ch.add_markers_by_time name time_dict options)

/-- The loop body of `add_lines_by_time`: one shared mutable `options` dict
has its `"pane"` key assigned on every iteration, and each tuple at position
`idx` is rendered immediately as a two-point instruction named
`name ++ toString idx`. -/
def linesLoop (type : TVSeriesType) (name : String) (pane : Int) :
    Dict -> Nat -> List (JPrim × Rat × JPrim × Rat) -> Dict × List Drawing
  | opts, _, [] => (opts, [])
  | opts, idx, tl :: rest =>
    let opts := aset opts "pane" (.p (.i pane))
    let d := Drawing.addSeries type (name ++ toString idx) (some opts)
      [valuePoint tl.1 tl.2.1, valuePoint tl.2.2.1 tl.2.2.2]
    let r := linesLoop type name pane opts (idx + 1) rest
    (r.1, d :: r.2)

/-- `TVChart.add_lines_by_time`. -/
def TVChart.add_lines_by_time (ch : TVChart) (name : String) (pane : Int)
    (time_lines : List (JPrim × Rat × JPrim × Rat)) (type : TVSeriesType)
    (options : Option Dict) : TVChart :=
  let r := linesLoop type name pane (options.getD []) 0 time_lines
  { ch with drawings := ch.drawings ++ r.2 }

/-- The list comprehension of `add_lines_by_idx`: translate both endpoint
indices of every tuple through the axis (subscripting `None` raises
`TypeError`). -/
def idxToTimeLines (axis : Option (List Int)) :
    List (Int × Rat × Int × Rat) ->
    Except TVError (List (JPrim × Rat × JPrim × Rat))
  | [] => .ok []
  | q :: rest =>
    match axis with
    | none => .error .typeError
    | some ts =>
      match pyIndex ts q.1 with
      | .error e => .error e
      | .ok t1 =>
        match pyIndex ts q.2.2.1 with
        | .error e => .error e
        | .ok t2 =>
          match idxToTimeLines axis rest with
          | .error e => .error e
          | .ok tl => .ok ((JPrim.i t1, q.2.1, JPrim.i t2, q.2.2.2) :: tl)

/-- `TVChart.add_lines_by_idx`: translate, then delegate. -/
def TVChart.add_lines_by_idx (ch : TVChart) (name : String) (pane : Int)
    (idx_lines : List (Int × Rat × Int × Rat)) (type : TVSeriesType)
    (options : Option Dict) : Except TVError TVChart :=
  match idxToTimeLines ch.time_series idx_lines with
  | .error e => .error e
  | .ok tl => .ok (ch.add_lines_by_time name pane tl type options)

/-- The parameter record handed to the `index.html` template: the whole
rendered document, under the opaque-pure-template reading of spec §6. -/
structure RenderOutput where
  chart_options : Option Dict
  legend_html : Option String
  drawings : List Drawing
deriving DecidableEq, Repr

/-- The marker flush at the top of `html()`: one `AddMarkers` instruction per
accumulator entry, in accumulator iteration order. -/
def TVChart.flushMarkers (ch : TVChart) : List Drawing :=
  ch.series_markers.map fun kv => .addMarkers kv.1 kv.2

/-- `TVChart.html`: append the flushed marker instructions to the persistent
drawing list (the accumulator is NOT cleared), then render.  Returns the
post-call builder state together with the render output. -/
def TVChart.html (ch : TVChart) : TVChart × RenderOutput :=
  let ds := ch.drawings ++ ch.flushMarkers
  ({ ch with drawings := ds },
   { chart_options := ch.chart_options, legend_html := ch.legend_html,
     drawings := ds })

/-- A heap of Python dict objects addressed by reference identity, used to
state the in-place mutation performed by the constructor on the caller's
`chart_options` object. -/
abbrev Heap := List (Nat × Dict)

/-- The effect of `TVChart.__init__` (lines 32-35) on the caller's
`chart_options` dict object, with dicts as heap objects: in interday mode a
supplied dict is mutated in place at its own reference (its `timeScale` key
assigned) and the very same reference is stored; a missing dict is freshly
allocated.  Outside interday mode nothing is touched. -/
def initChartOptionsHeap (mode : String) (ro : Option Nat) (hp : Heap) :
    Heap × Option Nat :=
  if pyLowerStrip mode = "interday" then
    match ro with
    | none =>
      let r := (hp.map Prod.fst).foldr max 0 + 1
      (hp ++ [(r, aset [] "timeScale" interdayTimeScale)], some r)
    | some r =>
      match aget? hp r with
      | some d => (aset hp r (aset d "timeScale" interdayTimeScale), some r)
      | none => (hp, some r)
  else (hp, ro)

/-- Is this drawing the candlestick instruction named "ohlc"? -/
def isOhlcCandlestick : Drawing -> Bool
  | .addSeries ty n _ _ => ty == TVSeriesType.Candlestick && n == "ohlc"
  | _ => false

/-- Is this drawing the volume histogram instruction named "volume"? -/
def isVolumeHistogram : Drawing -> Bool
  | .addSeries ty n _ _ => ty == TVSeriesType.Histogram && n == "volume"
  | _ => false

/-- The candlestick data points produced by `add_ohlcv`. -/
def ohlcData (ts : List Int) (o h l c : List Rat) : List Dict :=
  (zip5 ts o h l c).map fun x => ohlcPoint x.1 x.2.1 x.2.2.1 x.2.2.2.1 x.2.2.2.2

/-- The volume-options defaulting chain of `add_ohlcv`: force `priceFormat`
and `priceScaleId`, fill `scaleMargins` and `color` only when absent. -/
def volumeOpts (vo : Option Dict) : Dict :=
  let d := vo.getD []
  let d := aset d "priceFormat" (.obj [("type", .s "volume")])
  let d := aset d "priceScaleId" (.p (.s ""))
  let d := if ahas d "scaleMargins" then d
    else aset d "scaleMargins" (.obj [("top", .q 0.9), ("bottom", .q 0)])
  if ahas d "color" then d else aset d "color" (.p (.s "#26a69a"))

/-- The volume instruction emitted by `add_ohlcv`: present exactly when `v`
is supplied and truthy (non-empty). -/
def volumeDrawings (ts : List Int) (v : Option (List Rat)) (vo : Option Dict) :
    List Drawing :=
  match v with
  | none => []
  | some vl =>
    if vl.isEmpty then []
    else [.addSeries .Histogram "volume" (some (volumeOpts vo))
      ((ts.zip vl).map fun x => valuePoint (.i x.1) x.2)]

section DictLemmas

variable {K A : Type} [DecidableEq K]

/-- Assigning a key makes it present with the assigned value. -/
theorem aget?_aset_self (d : List (K × A)) (k : K) (v : A) :
    aget? (aset d k v) k = some v := by
  induction d with
  | nil => simp [aset, aget?]
  | cons p rest ih =>
    by_cases hp : p.1 = k
    · simp [aset, hp, aget?]
    · simp [aset, hp, aget?, ih]

/-- Assigning a key leaves every other key unchanged. -/
theorem aget?_aset_ne (d : List (K × A)) {k k' : K} (v : A) (hne : k' ≠ k) :
    aget? (aset d k v) k' = aget? d k' := by
  have hkk : ¬(k = k') := fun hh => hne hh.symm
  induction d with
  | nil => simp [aset, aget?, hkk]
  | cons p rest ih =>
    by_cases hp : p.1 = k
    · simp [aset, hp, aget?, hkk]
    · simp [aset, hp, aget?, ih]

/-- Assigning a key leaves the presence of every other key unchanged. -/
theorem ahas_aset_ne (d : List (K × A)) {k k' : K} (v : A) (hne : k' ≠ k) :
    ahas (aset d k v) k' = ahas d k' := by
  have hkk : ¬(k = k') := fun hh => hne hh.symm
  induction d with
  | nil => simp [aset, ahas, hkk]
  | cons p rest ih =>
    by_cases hp : p.1 = k
    · simp [aset, hp, ahas, hkk]
    · simp [aset, hp, ahas, ih]

/-- Key presence is membership among the keys. -/
theorem ahas_iff_mem_keys (d : List (K × A)) (k : K) :
    ahas d k = true ↔ k ∈ d.map Prod.fst := by
  induction d with
  | nil => simp [ahas]
  | cons p rest ih =>
    by_cases hp : p.1 = k
    · simp [ahas, hp]
    · have hne : ¬ k = p.1 := fun hh => hp hh.symm
      simp [ahas, hp, ih, hne]

/-- A successful lookup comes from an actual entry. -/
theorem mem_of_aget?_eq_some {d : List (K × A)} {k : K} {v : A}
    (h : aget? d k = some v) : (k, v) ∈ d := by
  induction d with
  | nil => simp [aget?] at h
  | cons p rest ih =>
    obtain ⟨a, b⟩ := p
    rw [aget?] at h
    by_cases hp : a = k
    · subst hp
      simp at h
      subst h
      exact List.mem_cons_self _ _
    · simp [hp] at h
      exact List.mem_cons_of_mem _ (ih h)

/-- Folding dict assignments over pairs that never mention `k` leaves `k`'s
lookup unchanged. -/
theorem aget?_foldl_aset_not_mem (ps : List (K × A)) {k : K}
    (hk : k ∉ ps.map Prod.fst) (d0 : List (K × A)) :
    aget? (ps.foldl (fun d kv => aset d kv.1 kv.2) d0) k = aget? d0 k := by
  induction ps generalizing d0 with
  | nil => rfl
  | cons p rest ih =>
    simp only [List.map, List.mem_cons, not_or] at hk
    simp only [List.foldl]
    rw [ih hk.2, aget?_aset_ne _ _ hk.1]

/-- Folding dict assignments over pairs with nodup keys: the entry carrying
`k` determines the final lookup. -/
theorem aget?_foldl_aset_mem {ps : List (K × A)}
    (hnd : (ps.map Prod.fst).Nodup) {k : K} {v : A} (hmem : (k, v) ∈ ps)
    (d0 : List (K × A)) :
    aget? (ps.foldl (fun d kv => aset d kv.1 kv.2) d0) k = some v := by
  induction ps generalizing d0 with
  | nil => cases hmem
  | cons p rest ih =>
    rw [List.map_cons, List.nodup_cons] at hnd
    rcases List.mem_cons.mp hmem with hh | hh
    · subst hh
      simp only [List.foldl]
      rw [aget?_foldl_aset_not_mem rest hnd.1, aget?_aset_self]
    · exact ih hnd.2 hh _

end DictLemmas

/-- A parse failure of any element makes the whole comprehension raise. -/
theorem parseTimes_eq_none {t : List String} {x : String} (hx : x ∈ t)
    (hbad : parseEpochUTC x = none) : parseTimes t = none := by
  induction t with
  | nil => cases hx
  | cons y ys ih =>
    rcases List.mem_cons.mp hx with hh | hh
    · subst hh
      simp [parseTimes, hbad]
    · rw [parseTimes, ih hh]
      cases parseEpochUTC y <;> rfl

/-- A successful parse of the whole list keeps its length. -/
theorem parseTimes_length {t : List String} {ts : List Int}
    (hp : parseTimes t = some ts) : ts.length = t.length := by
  induction t generalizing ts with
  | nil => simp [parseTimes] at hp; simp [← hp]
  | cons y ys ih =>
    rw [parseTimes] at hp
    cases hy : parseEpochUTC y with
    | none => rw [hy] at hp; cases hp
    | some v =>
      rw [hy] at hp
      cases hys : parseTimes ys with
      | none => rw [hys] at hp; cases hp
      | some vs =>
        rw [hys] at hp
        cases hp
        simp [ih hys]

/-- `zip5` has the length of its first list when the others are at least as
long. -/
theorem zip5_length {a b c d e : Type} (as : List a) :
    ∀ (bs : List b) (cs : List c) (ds : List d) (es : List e),
    as.length ≤ bs.length → as.length ≤ cs.length → as.length ≤ ds.length →
    as.length ≤ es.length → (zip5 as bs cs ds es).length = as.length := by
  induction as with
  | nil =>
    intro bs cs ds es _ _ _ _
    cases bs <;> cases cs <;> cases ds <;> cases es <;> rfl
  | cons x xs ih =>
    intro bs cs ds es h1 h2 h3 h4
    cases bs with
    | nil => simp at h1
    | cons y ys =>
      cases cs with
      | nil => simp at h2
      | cons z zs =>
        cases ds with
        | nil => simp at h3
        | cons w ws =>
          cases es with
          | nil => simp at h4
          | cons u us =>
            simp only [zip5, List.length_cons]
            rw [ih ys zs ws us (by simpa using h1) (by simpa using h2)
              (by simpa using h3) (by simpa using h4)]

/-- The candlestick data has one point per timestamp. -/
theorem ohlcData_length {ts : List Int} {o h l c : List Rat}
    (ho : ts.length ≤ o.length) (hh : ts.length ≤ h.length)
    (hl : ts.length ≤ l.length) (hc : ts.length ≤ c.length) :
    (ohlcData ts o h l c).length = ts.length := by
  rw [ohlcData, List.length_map, zip5_length ts o h l c ho hh hl hc]

/-- The times of the candlestick data are the parsed timestamps in input
order. -/
theorem ohlcData_times (ts : List Int) :
    ∀ (o h l c : List Rat),
    ts.length ≤ o.length → ts.length ≤ h.length → ts.length ≤ l.length →
    ts.length ≤ c.length →
    (ohlcData ts o h l c).map (fun pt => aget? pt "time")
      = ts.map (fun x => some (JVal.p (JPrim.i x))) := by
  induction ts with
  | nil =>
    intro o h l c _ _ _ _
    cases o <;> cases h <;> cases l <;> cases c <;> rfl
  | cons x xs ih =>
    intro o h l c h1 h2 h3 h4
    cases o with
    | nil => simp at h1
    | cons y ys =>
      cases h with
      | nil => simp at h2
      | cons z zs =>
        cases l with
        | nil => simp at h3
        | cons w ws =>
          cases c with
          | nil => simp at h4
          | cons u us =>
            have ihx := ih ys zs ws us (by simpa using h1) (by simpa using h2)
              (by simpa using h3) (by simpa using h4)
            simp only [ohlcData, zip5, List.map_cons, List.map_map] at ihx ⊢
            rw [ihx]
            rfl

/-- The volume instruction is never the candlestick. -/
theorem volumeDrawings_filter_ohlc (ts : List Int) (v : Option (List Rat))
    (vo : Option Dict) :
    (volumeDrawings ts v vo).filter isOhlcCandlestick = [] := by
  cases v with
  | none => rfl
  | some vl =>
    by_cases he : vl.isEmpty
    · simp [volumeDrawings, he]
    · simp [volumeDrawings, he, isOhlcCandlestick]

/-- Characterization of a successful `add_ohlcv` call: the axis is
overwritten, the candlestick instruction is appended, and then the volume
instruction when `v` is truthy. -/
theorem add_ohlcv_eq (ch : TVChart) {t : List String} {ts : List Int}
    (hp : parseTimes t = some ts) (o h l c : List Rat)
    (v : Option (List Rat)) (oo vo : Option Dict) :
    ch.add_ohlcv t o h l c v oo vo = .ok { ch with
      time_series := some ts,
      drawings := ch.drawings
        ++ [Drawing.addSeries .Candlestick "ohlc" oo (ohlcData ts o h l c)]
        ++ volumeDrawings ts v vo } := by
  cases v with
  | none => simp [TVChart.add_ohlcv, hp, ohlcData, volumeDrawings]
  | some vl =>
    by_cases he : vl.isEmpty
    · simp [TVChart.add_ohlcv, hp, ohlcData, volumeDrawings, he]
    · simp [TVChart.add_ohlcv, hp, ohlcData, volumeDrawings, volumeOpts, he]

/-- C1: for five equal-length input columns whose timestamp strings all
parse, a subsequent `render()` contains exactly one candlestick instruction
named "ohlc", with one point per input row, whose time values are the
UTC-normalized integer epoch seconds of the inputs in input order. -/
theorem C1_add_ohlcv_render_candlestick (mode : String) (copts : Option Dict)
    (t : List String) (o h l c : List Rat) (v : Option (List Rat))
    (oo vo : Option Dict) (ts : List Int)
    (ho : o.length = t.length) (hh : h.length = t.length)
    (hl : l.length = t.length) (hc : c.length = t.length)
    (hp : parseTimes t = some ts) :
    ∃ ch' data,
      (TVChart.init mode copts).add_ohlcv t o h l c v oo vo = .ok ch' ∧
      ((ch'.html).2.drawings.filter isOhlcCandlestick)
        = [Drawing.addSeries .Candlestick "ohlc" oo data] ∧
      data.length = t.length ∧
      data.map (fun pt => aget? pt "time")
        = ts.map (fun x => some (JVal.p (JPrim.i x))) := by
  have hts : ts.length = t.length := parseTimes_length hp
  have l1 : ts.length ≤ o.length := by omega
  have l2 : ts.length ≤ h.length := by omega
  have l3 : ts.length ≤ l.length := by omega
  have l4 : ts.length ≤ c.length := by omega
  refine ⟨_, ohlcData ts o h l c, add_ohlcv_eq _ hp o h l c v oo vo, ?_, ?_, ?_⟩
  · simp only [TVChart.html, TVChart.flushMarkers, TVChart.init]
    simp [List.filter_append, volumeDrawings_filter_ohlc, isOhlcCandlestick]
  · rw [ohlcData_length l1 l2 l3 l4, hts]
  · exact ohlcData_times ts o h l c l1 l2 l3 l4

/-- Witness for C1 at the spec's example input: one candlestick point
`{time: 1609459200, open: 1, high: 2, low: 0, close: 1.5}`. -/
theorem C1_witness :
    (∃ ch' data, (TVChart.init "regular" none).add_ohlcv
        ["2021-01-01T00:00:00Z"] [1] [2] [0] [1.5] none none none = .ok ch' ∧
      ((ch'.html).2.drawings.filter isOhlcCandlestick)
        = [Drawing.addSeries .Candlestick "ohlc" none data] ∧
      data.length = 1 ∧
      data.map (fun pt => aget? pt "time")
        = [some (JVal.p (JPrim.i 1609459200))]) ∧
    ohlcData [1609459200] [1] [2] [0] [1.5]
      = [[("time", .p (.i 1609459200)), ("open", .p (.q 1)), ("high", .p (.q 2)),
          ("low", .p (.q 0)), ("close", .p (.q 1.5))]] :=
  ⟨C1_add_ohlcv_render_candlestick "regular" none _ _ _ _ _ none none none
      [1609459200] (by decide) (by decide) (by decide) (by decide) (by decide),
   by rfl⟩

/-- C2: with a non-empty marker accumulator, the flush appends to the
persistent drawing list on every `render()`: each accumulated marker
instruction appears once in the first output and twice in the second. -/
theorem C2_render_twice_duplicates_markers (ch : TVChart) (n : String)
    (ms : List Dict) (hmem : (n, ms) ∈ ch.series_markers)
    (hnd : (ch.series_markers.map Prod.fst).Nodup)
    (hni : Drawing.addMarkers n ms ∉ ch.drawings) :
    (((ch.html).1.html).2.drawings.count (Drawing.addMarkers n ms) = 2) ∧
    ((ch.html).2.drawings.count (Drawing.addMarkers n ms) = 1) := by
  have hF : ch.flushMarkers.count (Drawing.addMarkers n ms) = 1 := by
    have hndl : ch.series_markers.Nodup := List.Nodup.of_map _ hnd
    have hinj : Function.Injective
        (fun kv : String × List Dict => Drawing.addMarkers kv.1 kv.2) := by
      intro a b hab
      cases a
      cases b
      simpa [Prod.ext_iff] using hab
    have hFnd : ch.flushMarkers.Nodup := hndl.map hinj
    have hFm : Drawing.addMarkers n ms ∈ ch.flushMarkers :=
      List.mem_map.mpr ⟨(n, ms), hmem, rfl⟩
    exact List.count_eq_one_of_mem hFnd hFm
  have h0 : ch.drawings.count (Drawing.addMarkers n ms) = 0 :=
    List.count_eq_zero.mpr hni
  have e2 : (((ch.html).1.html).2).drawings
      = (ch.drawings ++ ch.flushMarkers) ++ ch.flushMarkers := rfl
  have e1 : ((ch.html).2).drawings = ch.drawings ++ ch.flushMarkers := rfl
  constructor
  · rw [e2, List.count_append, List.count_append, h0, hF]
  · rw [e1, List.count_append, h0, hF]

/-- Witness for C2 on a builder holding one accumulated marker. -/
theorem C2_witness :
    ("s", [[("time", JVal.p (JPrim.i 1)), ("text", JVal.p (JPrim.s "a")),
        ("color", JVal.p (JPrim.s "red")), ("shape", JVal.p (JPrim.s "arrowUp")),
        ("position", JVal.p (JPrim.s "belowBar"))]])
      ∈ ((TVChart.init "regular" none).add_markers_by_time "s"
          [(JPrim.i 1, "a")] defaultMarkerOptions).series_markers ∧
    (((((TVChart.init "regular" none).add_markers_by_time "s"
        [(JPrim.i 1, "a")] defaultMarkerOptions).html).1.html).2.drawings.count
      (Drawing.addMarkers "s" [[("time", JVal.p (JPrim.i 1)),
        ("text", JVal.p (JPrim.s "a")), ("color", JVal.p (JPrim.s "red")),
        ("shape", JVal.p (JPrim.s "arrowUp")),
        ("position", JVal.p (JPrim.s "belowBar"))]]) = 2) :=
  ⟨by decide,
   (C2_render_twice_duplicates_markers _ _ _ (by decide) (by decide)
     (by decide)).1⟩

/-- C3 counterexample: a caller-supplied `options` carrying a `"time"` key
overrides the pair's own time in the accumulated marker (the `**options`
spread comes after `"time"` and `"text"` in the dict literal), contradicting
the claim that options never override time/text. -/
theorem C3_counterexample :
    (aget? ((TVChart.init "regular" none).add_markers_by_time "s"
        [(JPrim.i 5, "x")] [("time", JVal.p (JPrim.i 999))]).series_markers "s")
      = some [[("time", JVal.p (JPrim.i 999)), ("text", JVal.p (JPrim.s "x"))]] ∧
    JVal.p (JPrim.i 999) ≠ JVal.p (JPrim.i 5) := by decide

/-- C3 (amended): each (time, text) pair is appended, never replacing prior
entries for the name, as the Python dict `{"time": t, "text": x, **options}`;
other names are untouched; because the spread comes last, the pair's time and
text survive exactly when `options` does not itself carry a `"time"` /
`"text"` key, and an options `"time"` entry overrides the pair's time. -/
theorem C3_amended_markers_append_spread (ch : TVChart) (name : String)
    (time_dict : List (JPrim × String)) (options : Dict)
    (hnd : (options.map Prod.fst).Nodup) :
    (aget? (ch.add_markers_by_time name time_dict options).series_markers name
      = some ((aget? ch.series_markers name).getD [] ++
          time_dict.map (fun kv =>
            pyDict ([("time", .p kv.1), ("text", .p (.s kv.2))] ++ options)))) ∧
    (∀ n, n ≠ name →
      aget? (ch.add_markers_by_time name time_dict options).series_markers n
        = aget? ch.series_markers n) ∧
    (ahas options "time" = false →
      (time_dict.map fun kv =>
        aget? (pyDict ([("time", .p kv.1), ("text", .p (.s kv.2))] ++ options))
          "time")
        = time_dict.map fun kv => some (JVal.p kv.1)) ∧
    (ahas options "text" = false →
      (time_dict.map fun kv =>
        aget? (pyDict ([("time", .p kv.1), ("text", .p (.s kv.2))] ++ options))
          "text")
        = time_dict.map fun kv => some (JVal.p (.s kv.2))) ∧
    (∀ tv, aget? options "time" = some tv →
      (time_dict.map fun kv =>
        aget? (pyDict ([("time", .p kv.1), ("text", .p (.s kv.2))] ++ options))
          "time")
        = time_dict.map fun _ => some tv) := by
  refine ⟨?_, ?_, ?_, ?_, ?_⟩
  · simp [TVChart.add_markers_by_time, aget?_aset_self]
  · intro n hn
    simp [TVChart.add_markers_by_time, aget?_aset_ne _ _ hn]
  · intro hfalse
    have hnm : "time" ∉ options.map Prod.fst := by
      rw [← ahas_iff_mem_keys]
      simp [hfalse]
    refine List.map_congr_left ?_
    intro kv _
    rw [pyDict, List.foldl_append, aget?_foldl_aset_not_mem options hnm]
    rfl
  · intro hfalse
    have hnm : "text" ∉ options.map Prod.fst := by
      rw [← ahas_iff_mem_keys]
      simp [hfalse]
    refine List.map_congr_left ?_
    intro kv _
    rw [pyDict, List.foldl_append, aget?_foldl_aset_not_mem options hnm]
    rfl
  · intro tv htv
    have hmem := mem_of_aget?_eq_some htv
    refine List.map_congr_left ?_
    intro kv _
    rw [pyDict, List.foldl_append, aget?_foldl_aset_mem hnd hmem]

/-- Witness for C3's amended statement at a concrete call. -/
theorem C3_witness :
    (defaultMarkerOptions.map Prod.fst).Nodup ∧
    (aget? ((TVChart.init "regular" none).add_markers_by_time "s"
        [(JPrim.i 7, "y")] defaultMarkerOptions).series_markers "s"
      = some [pyDict ([("time", .p (.i 7)), ("text", .p (.s "y"))]
          ++ defaultMarkerOptions)]) :=
  ⟨by decide,
   (C3_amended_markers_append_spread (TVChart.init "regular" none) "s"
     [(JPrim.i 7, "y")] defaultMarkerOptions (by decide)).1⟩

/-- The fill-if-absent pattern leaves other keys' lookups unchanged. -/
theorem aget?_fill_ne {K A : Type} [DecidableEq K] (c : Prop) [Decidable c]
    (d : List (K × A)) (k k' : K) (v : A) (hne : k' ≠ k) :
    aget? (if c then d else aset d k v) k' = aget? d k' := by
  by_cases hc : c
  · rw [if_pos hc]
  · rw [if_neg hc, aget?_aset_ne _ _ hne]

/-- The forced `priceFormat` key of the volume options. -/
theorem volumeOpts_priceFormat (vo : Option Dict) :
    aget? (volumeOpts vo) "priceFormat" = some (.obj [("type", .s "volume")]) := by
  simp only [volumeOpts]
  split <;> split <;> simp [aget?_aset_ne, aget?_aset_self]

/-- The forced `priceScaleId` key of the volume options. -/
theorem volumeOpts_priceScaleId (vo : Option Dict) :
    aget? (volumeOpts vo) "priceScaleId" = some (.p (.s "")) := by
  simp only [volumeOpts]
  split <;> split <;> simp [aget?_aset_ne, aget?_aset_self]

/-- A caller-supplied `scaleMargins` survives the defaulting chain. -/
theorem volumeOpts_scaleMargins_present (vo : Option Dict)
    (hc : ahas (vo.getD []) "scaleMargins" = true) :
    aget? (volumeOpts vo) "scaleMargins" = aget? (vo.getD []) "scaleMargins" := by
  simp only [volumeOpts]
  rw [ahas_aset_ne _ _ (by simp), ahas_aset_ne _ _ (by simp), hc]
  simp only [if_pos rfl]
  rw [aget?_fill_ne _ _ _ _ _ (by simp)]
  simp [aget?_aset_ne]

/-- A missing `scaleMargins` gets the fixed default. -/
theorem volumeOpts_scaleMargins_absent (vo : Option Dict)
    (hc : ahas (vo.getD []) "scaleMargins" = false) :
    aget? (volumeOpts vo) "scaleMargins"
      = some (.obj [("top", .q 0.9), ("bottom", .q 0)]) := by
  simp only [volumeOpts]
  rw [ahas_aset_ne _ _ (by simp), ahas_aset_ne _ _ (by simp), hc]
  simp only [Bool.false_eq_true, if_false]
  rw [aget?_fill_ne _ _ _ _ _ (by simp)]
  simp [aget?_aset_self]

/-- A caller-supplied `color` survives the defaulting chain. -/
theorem volumeOpts_color_present (vo : Option Dict)
    (hc : ahas (vo.getD []) "color" = true) :
    aget? (volumeOpts vo) "color" = aget? (vo.getD []) "color" := by
  simp only [volumeOpts]
  set d2 := aset (aset (vo.getD []) "priceFormat"
      (JVal.obj [("type", JPrim.s "volume")])) "priceScaleId"
      (JVal.p (JPrim.s "")) with hd2
  have h2c : ahas d2 "color" = true := by
    rw [hd2, ahas_aset_ne _ _ (by simp), ahas_aset_ne _ _ (by simp)]
    exact hc
  by_cases hsm : ahas d2 "scaleMargins" = true
  · rw [if_pos hsm, if_pos h2c, hd2, aget?_aset_ne _ _ (by simp),
      aget?_aset_ne _ _ (by simp)]
  · rw [if_neg hsm]
    have h3c : ahas (aset d2 "scaleMargins"
        (JVal.obj [("top", JPrim.q 0.9), ("bottom", JPrim.q 0)])) "color"
        = true := by
      rw [ahas_aset_ne _ _ (by simp)]
      exact h2c
    rw [if_pos h3c, aget?_aset_ne _ _ (by simp), hd2,
      aget?_aset_ne _ _ (by simp), aget?_aset_ne _ _ (by simp)]

/-- A missing `color` gets the fixed default. -/
theorem volumeOpts_color_absent (vo : Option Dict)
    (hc : ahas (vo.getD []) "color" = false) :
    aget? (volumeOpts vo) "color" = some (.p (.s "#26a69a")) := by
  simp only [volumeOpts]
  set d2 := aset (aset (vo.getD []) "priceFormat"
      (JVal.obj [("type", JPrim.s "volume")])) "priceScaleId"
      (JVal.p (JPrim.s "")) with hd2
  have h2c : ahas d2 "color" = false := by
    rw [hd2, ahas_aset_ne _ _ (by simp), ahas_aset_ne _ _ (by simp)]
    exact hc
  by_cases hsm : ahas d2 "scaleMargins" = true
  · rw [if_pos hsm]
    rw [h2c]
    simp only [Bool.false_eq_true, if_false]
    rw [aget?_aset_self]
  · rw [if_neg hsm]
    have h3c : ahas (aset d2 "scaleMargins"
        (JVal.obj [("top", JPrim.q 0.9), ("bottom", JPrim.q 0)])) "color"
        = false := by
      rw [ahas_aset_ne _ _ (by simp)]
      exact h2c
    rw [h3c]
    simp only [Bool.false_eq_true, if_false]
    rw [aget?_aset_self]

/-- C4: code behavior at the claim's failing input.  With a one-entry time
axis, index `-1` lies outside `[0, 1)` yet `add_markers_by_idx` succeeds,
silently wrapping Python-style to the last timestamp and emitting a marker,
instead of failing fast with an index error as the claim requires. -/
theorem C4_negative_index_silently_wraps :
    ((((TVChart.init "regular" none).add_ohlcv ["2021-01-01T00:00:00Z"]
        [1] [2] [0] [1] none none none).bind
      (fun ch => ch.add_markers_by_idx "s" [(-1, "m")] defaultMarkerOptions)).map
      (fun ch => aget? ch.series_markers "s"))
    = .ok (some [[("time", JVal.p (JPrim.i 1609459200)),
        ("text", JVal.p (JPrim.s "m")), ("color", JVal.p (JPrim.s "red")),
        ("shape", JVal.p (JPrim.s "arrowUp")),
        ("position", JVal.p (JPrim.s "belowBar"))]]) := by decide

/-- C5: after a fresh-builder `add_ohlcv`, the volume histogram named
"volume" is present in the render output iff `v` is supplied non-empty, its
options are always the defaulting chain's output, whose forced keys carry the
fixed values regardless of the caller's `volume_options`, and whose
`scaleMargins`/`color` keep caller values when supplied and otherwise get the
fixed defaults. -/
theorem C5_volume_presence_and_options (mode : String) (copts : Option Dict)
    (t : List String) (o h l c : List Rat) (v : Option (List Rat))
    (oo vo : Option Dict) (ts : List Int) (hp : parseTimes t = some ts) :
    ∃ ch', (TVChart.init mode copts).add_ohlcv t o h l c v oo vo = .ok ch' ∧
      (((ch'.html).2.drawings.filter isVolumeHistogram) ≠ [] ↔
        ∃ vl, v = some vl ∧ vl ≠ []) ∧
      (∀ opts data,
        Drawing.addSeries .Histogram "volume" opts data ∈ (ch'.html).2.drawings →
        opts = some (volumeOpts vo)) ∧
      aget? (volumeOpts vo) "priceFormat" = some (.obj [("type", .s "volume")]) ∧
      aget? (volumeOpts vo) "priceScaleId" = some (.p (.s "")) ∧
      (ahas (vo.getD []) "scaleMargins" = true →
        aget? (volumeOpts vo) "scaleMargins"
          = aget? (vo.getD []) "scaleMargins") ∧
      (ahas (vo.getD []) "scaleMargins" = false →
        aget? (volumeOpts vo) "scaleMargins"
          = some (.obj [("top", .q 0.9), ("bottom", .q 0)])) ∧
      (ahas (vo.getD []) "color" = true →
        aget? (volumeOpts vo) "color" = aget? (vo.getD []) "color") ∧
      (ahas (vo.getD []) "color" = false →
        aget? (volumeOpts vo) "color" = some (.p (.s "#26a69a"))) := by
  refine ⟨_, add_ohlcv_eq _ hp o h l c v oo vo, ?_, ?_,
    volumeOpts_priceFormat vo, volumeOpts_priceScaleId vo,
    volumeOpts_scaleMargins_present vo, volumeOpts_scaleMargins_absent vo,
    volumeOpts_color_present vo, volumeOpts_color_absent vo⟩
  · cases v with
    | none =>
      simp [TVChart.html, TVChart.flushMarkers, TVChart.init, volumeDrawings,
        isVolumeHistogram]
    | some vl =>
      by_cases he : vl.isEmpty
      · have hnil : vl = [] := List.isEmpty_iff.mp he
        subst hnil
        simp [TVChart.html, TVChart.flushMarkers, TVChart.init, volumeDrawings,
          isVolumeHistogram]
      · have hne : vl ≠ [] := by simpa [List.isEmpty_iff] using he
        simp [TVChart.html, TVChart.flushMarkers, TVChart.init, volumeDrawings,
          isVolumeHistogram, he, hne]
  · intro opts data hmem
    cases v with
    | none =>
      simp [TVChart.html, TVChart.flushMarkers, TVChart.init,
        volumeDrawings] at hmem
    | some vl =>
      by_cases he : vl.isEmpty
      · simp [TVChart.html, TVChart.flushMarkers, TVChart.init, volumeDrawings,
          he] at hmem
      · simp [TVChart.html, TVChart.flushMarkers, TVChart.init, volumeDrawings,
          he] at hmem
        exact hmem.1

/-- Witness for C5: caller-supplied color survives, forced keys hold. -/
theorem C5_witness :
    parseTimes ["2021-01-01T00:00:00Z"] = some [1609459200] ∧
    aget? (volumeOpts (some [("color", JVal.p (JPrim.s "blue"))])) "priceFormat"
      = some (.obj [("type", .s "volume")]) ∧
    aget? (volumeOpts (some [("color", JVal.p (JPrim.s "blue"))])) "color"
      = some (.p (.s "blue")) := by
  obtain ⟨ch', hok, hiff, hopts, hpf, hps, hsm1, hsm0, hc1, hc0⟩ :=
    C5_volume_presence_and_options "regular" none ["2021-01-01T00:00:00Z"]
      [1] [2] [0] [1] (some [5]) none
      (some [("color", JVal.p (JPrim.s "blue"))]) [1609459200] (by decide)
  exact ⟨by decide, hpf, (hc1 (by decide)).trans (by decide)⟩

/-- The zip-then-filter of `add_series` keeps one point per non-null value
in the truncated prefix. -/
theorem zipFilterMap_length (ts : List Int) :
    ∀ series : List (Option Rat),
    ((ts.zip series).filterMap fun x =>
        x.2.map fun val => valuePoint (.i x.1) val).length
      = (series.take ts.length).countP (fun x => x.isSome) := by
  induction ts with
  | nil => intro series; simp
  | cons a as ih =>
    intro series
    cases series with
    | nil => simp
    | cons b bs =>
      cases b with
      | none => simpa [List.filterMap_cons, List.countP_cons] using ih bs
      | some x => simpa [List.filterMap_cons, List.countP_cons] using ih bs

/-- Every non-null series entry keeps a point carrying the axis timestamp at
its own position. -/
theorem zipFilterMap_mem (ts : List Int) :
    ∀ (series : List (Option Rat)) (j : Nat) (ti : Int) (x : Rat),
    ts[j]? = some ti → series[j]? = some (some x) →
    valuePoint (.i ti) x ∈ ((ts.zip series).filterMap fun p =>
      p.2.map fun val => valuePoint (.i p.1) val) := by
  induction ts with
  | nil => intro series j ti x h1 h2; simp at h1
  | cons a as ih =>
    intro series j ti x h1 h2
    cases series with
    | nil => simp at h2
    | cons b bs =>
      cases j with
      | zero =>
        have ha : a = ti := by simpa using h1
        have hb : b = some x := by simpa using h2
        subst ha
        subst hb
        rw [List.zip_cons_cons]
        exact List.mem_filterMap.mpr ⟨(a, some x), List.mem_cons_self _ _, rfl⟩
      | succ n =>
        simp at h1 h2
        obtain ⟨p, hp, hfp⟩ := List.mem_filterMap.mp (ih bs n ti x h1 h2)
        rw [List.zip_cons_cons]
        exact List.mem_filterMap.mpr ⟨p, List.mem_cons_of_mem _ hp, hfp⟩

/-- C6: with an axis established, `add_series` emits one instruction whose
point count is the number of non-null values among the first
min(N, length series) entries; each retained point pairs the axis timestamp
at the same original position with the value, and nulls yield no point. -/
theorem C6_add_series_gap_semantics (ch : TVChart) (ts : List Int)
    (hts : ch.time_series = some ts) (name : String) (pane : Int)
    (series : List (Option Rat)) (type : TVSeriesType) (options : Option Dict) :
    ∃ ch' opts data,
      ch.add_series name pane series type options = .ok ch' ∧
      ch'.drawings = ch.drawings ++ [.addSeries type name (some opts) data] ∧
      data.length = (series.take ts.length).countP (fun x => x.isSome) ∧
      (∀ (j : Nat) (ti : Int) (x : Rat),
        ts[j]? = some ti → series[j]? = some (some x) →
        valuePoint (.i ti) x ∈ data) := by
  have hok : ch.add_series name pane series type options = .ok { ch with
      drawings := ch.drawings ++ [.addSeries type name
        (some (aset (options.getD []) "pane" (.p (.i pane))))
        ((ts.zip series).filterMap fun x =>
          x.2.map fun val => valuePoint (.i x.1) val)] } := by
    simp [TVChart.add_series, hts]
  exact ⟨_, _, _, hok, rfl, zipFilterMap_length ts series,
    fun j ti x h1 h2 => zipFilterMap_mem ts series j ti x h1 h2⟩

/-- Witness for C6 on a three-entry axis with one null gap. -/
theorem C6_witness :
    ∃ ch' opts data,
      (⟨some [10, 20, 30], none, [], none, []⟩ : TVChart).add_series "s" 1
        [some 1, none, some 3] TVSeriesType.Line none = .ok ch' ∧
      data.length = 2 ∧ valuePoint (.i 30) 3 ∈ data ∧
      ch'.drawings = [Drawing.addSeries .Line "s" (some opts) data] := by
  obtain ⟨ch', opts, data, hok, hdr, hlen, hmem⟩ :=
    C6_add_series_gap_semantics (⟨some [10, 20, 30], none, [], none, []⟩ : TVChart)
      [10, 20, 30] rfl "s" 1 [some 1, none, some 3]
      TVSeriesType.Line none
  exact ⟨ch', opts, data, hok, by rw [hlen]; decide, hmem 2 30 3 (by rfl) (by rfl),
    by simpa using hdr⟩

/-- The lines loop emits one instruction per tuple, named with the running
index, each carrying exactly its tuple's two points. -/
theorem linesLoop_spec (type : TVSeriesType) (name : String) (pane : Int) :
    ∀ (tl : List (JPrim × Rat × JPrim × Rat)) (opts : Dict) (idx : Nat),
    (linesLoop type name pane opts idx tl).2.length = tl.length ∧
    (∀ (i : Nat) (x1 : JPrim) (y1 : Rat) (x2 : JPrim) (y2 : Rat),
      tl[i]? = some (x1, y1, x2, y2) →
      ∃ o, (linesLoop type name pane opts idx tl).2[i]?
        = some (.addSeries type (name ++ toString (idx + i)) (some o)
            [valuePoint x1 y1, valuePoint x2 y2])) := by
  intro tl
  induction tl with
  | nil =>
    intro opts idx
    refine ⟨rfl, ?_⟩
    intro i x1 y1 x2 y2 hi
    simp at hi
  | cons q rest ih =>
    intro opts idx
    constructor
    · simpa [linesLoop] using (ih (aset opts "pane" (.p (.i pane))) (idx + 1)).1
    · intro i x1 y1 x2 y2 hi
      cases i with
      | zero =>
        simp at hi
        subst hi
        exact ⟨aset opts "pane" (.p (.i pane)), by simp [linesLoop]⟩
      | succ n =>
        simp at hi
        obtain ⟨o, ho⟩ :=
          (ih (aset opts "pane" (.p (.i pane))) (idx + 1)).2 n x1 y1 x2 y2 hi
        refine ⟨o, ?_⟩
        have harith : idx + 1 + n = idx + (n + 1) := by omega
        rw [harith] at ho
        simpa [linesLoop] using ho

/-- C7: `add_lines_by_time` with k tuples appends exactly k instructions;
the one for the tuple at zero-based position i is named by concatenating the
name with i (no separator) and carries exactly that tuple's two points. -/
theorem C7_add_lines_by_time_instructions (ch : TVChart) (name : String)
    (pane : Int) (time_lines : List (JPrim × Rat × JPrim × Rat))
    (type : TVSeriesType) (options : Option Dict) :
    ∃ ds, (ch.add_lines_by_time name pane time_lines type options).drawings
        = ch.drawings ++ ds ∧
      ds.length = time_lines.length ∧
      ∀ (i : Nat) (x1 : JPrim) (y1 : Rat) (x2 : JPrim) (y2 : Rat),
        time_lines[i]? = some (x1, y1, x2, y2) →
        ∃ o, ds[i]? = some (.addSeries type (name ++ toString i) (some o)
            [valuePoint x1 y1, valuePoint x2 y2]) := by
  refine ⟨_, rfl, (linesLoop_spec type name pane time_lines (options.getD []) 0).1, ?_⟩
  intro i x1 y1 x2 y2 hi
  have h := (linesLoop_spec type name pane time_lines (options.getD []) 0).2
    i x1 y1 x2 y2 hi
  simpa using h

/-- Witness for C7 on two tuples. -/
theorem C7_witness :
    ∃ ds, ((TVChart.init "regular" none).add_lines_by_time "s" 0
        [(JPrim.i 1, 2, JPrim.i 3, 4), (JPrim.i 5, 6, JPrim.i 7, 8)]
        TVSeriesType.Line none).drawings = [] ++ ds ∧ ds.length = 2 ∧
      (∃ o, ds[1]? = some (.addSeries .Line ("s" ++ toString 1) (some o)
        [valuePoint (.i 5) 6, valuePoint (.i 7) 8])) := by
  obtain ⟨ds, hdr, hlen, hpt⟩ :=
    C7_add_lines_by_time_instructions (TVChart.init "regular" none) "s" 0
      [(JPrim.i 1, 2, JPrim.i 3, 4), (JPrim.i 5, 6, JPrim.i 7, 8)]
      TVSeriesType.Line none
  exact ⟨ds, hdr, hlen, hpt 1 _ _ _ _ (by rfl)⟩

/-- C8: a malformed timestamp string makes `add_ohlcv` fail with the parse
error raised while the axis comprehension is still being evaluated, so the
call returns `.error` and the caller's builder value is untouched: the prior
axis remains and no instruction is appended. -/
theorem C8_malformed_timestamp_aborts (ch : TVChart) (t : List String)
    (o h l c : List Rat) (v : Option (List Rat)) (oo vo : Option Dict)
    (x : String) (hx : x ∈ t) (hbad : parseEpochUTC x = none) :
    ch.add_ohlcv t o h l c v oo vo = .error .parseError := by
  simp [TVChart.add_ohlcv, parseTimes_eq_none hx hbad]

/-- Witness for C8: a builder with a prior axis keeps it (the call only
returns an error value). -/
theorem C8_witness :
    "never" ∈ ["2021-01-01", "never"] ∧ parseEpochUTC "never" = none ∧
    (⟨some [7], none, [], none, []⟩ : TVChart).add_ohlcv
      ["2021-01-01", "never"] [1, 1] [1, 1] [1, 1] [1, 1] none none none
      = .error .parseError :=
  ⟨by decide, by decide,
   C8_malformed_timestamp_aborts ⟨some [7], none, [], none, []⟩
     ["2021-01-01", "never"] [1, 1] [1, 1] [1, 1] [1, 1] none none none
     "never" (by decide) (by decide)⟩

/-- C9: interday construction (mode matched case-insensitively after
trimming) forces `timeScale` in the chart options handed to render,
overwriting any caller-supplied value and leaving every other caller key
unchanged. -/
theorem C9_interday_timescale_override (mode : String) (copts : Dict)
    (hm : pyLowerStrip mode = "interday") :
    ∃ od, ((TVChart.init mode (some copts)).html).2.chart_options = some od ∧
      aget? od "timeScale" = some interdayTimeScale ∧
      ∀ k, k ≠ "timeScale" → aget? od k = aget? copts k := by
  refine ⟨aset copts "timeScale" interdayTimeScale, ?_,
    aget?_aset_self _ _ _, fun k hk => aget?_aset_ne _ _ hk⟩
  simp [TVChart.html, TVChart.init, hm]

/-- Witness for C9: a caller-supplied conflicting `timeScale` is replaced,
the other key survives. -/
theorem C9_witness :
    pyLowerStrip " Interday" = "interday" ∧
    (∃ od, ((TVChart.init " Interday" (some [("timeScale", JVal.p JPrim.null),
        ("w", JVal.p (JPrim.i 5))])).html).2.chart_options = some od ∧
      aget? od "timeScale" = some interdayTimeScale ∧
      ∀ k, k ≠ "timeScale" → aget? od k
        = aget? [("timeScale", JVal.p JPrim.null), ("w", JVal.p (JPrim.i 5))] k) :=
  ⟨by decide, C9_interday_timescale_override " Interday" _ (by decide)⟩

/-- C10: in interday mode the constructor writes `timeScale` into the
caller's own dict object in place: the very same reference is stored, that
object's `timeScale` entry is replaced while its other entries are
unchanged, and every other heap object is untouched. -/
theorem C10_init_mutates_caller_options (mode : String) (hp : Heap) (r : Nat)
    (d : Dict) (hm : pyLowerStrip mode = "interday")
    (hr : aget? hp r = some d) :
    (initChartOptionsHeap mode (some r) hp).2 = some r ∧
    aget? (initChartOptionsHeap mode (some r) hp).1 r
      = some (aset d "timeScale" interdayTimeScale) ∧
    (∀ k, k ≠ "timeScale" →
      aget? (aset d "timeScale" interdayTimeScale) k = aget? d k) ∧
    (∀ r', r' ≠ r →
      aget? (initChartOptionsHeap mode (some r) hp).1 r' = aget? hp r') := by
  have he : initChartOptionsHeap mode (some r) hp
      = (aset hp r (aset d "timeScale" interdayTimeScale), some r) := by
    simp [initChartOptionsHeap, hm, hr]
  rw [he]
  exact ⟨rfl, aget?_aset_self _ _ _, fun k hk => aget?_aset_ne _ _ hk,
    fun r' hr' => aget?_aset_ne _ _ hr'⟩

/-- Witness for C10 on a two-object heap. -/
theorem C10_witness :
    aget? [(0, [("a", JVal.p (JPrim.b true))]), (1, ([] : Dict))] 0
      = some [("a", JVal.p (JPrim.b true))] ∧
    ((initChartOptionsHeap "interday" (some 0)
        [(0, [("a", JVal.p (JPrim.b true))]), (1, ([] : Dict))]).2 = some 0 ∧
      aget? (initChartOptionsHeap "interday" (some 0)
        [(0, [("a", JVal.p (JPrim.b true))]), (1, ([] : Dict))]).1 0
        = some (aset [("a", JVal.p (JPrim.b true))] "timeScale"
            interdayTimeScale)) := by
  obtain ⟨h1, h2, h3, h4⟩ :=
    C10_init_mutates_caller_options "interday"
      [(0, [("a", JVal.p (JPrim.b true))]), (1, ([] : Dict))] 0
      [("a", JVal.p (JPrim.b true))] (by decide) (by decide)
  exact ⟨by decide, h1, h2⟩
